import Mathlib

/-!
Verification of `organize_download.py` (download-folder organizer).

This file gives a shallow embedding of the program's data model and
operations, faithful to the Python source, and proves properties about
them.  External effects are made explicit:

* the settle-polling loop is driven by a trace of poll results
  (`Poll`), one per `stat()` call: a successful size read, a
  `FileNotFoundError`, or a `PermissionError`;
* filesystem existence checks are oracles (`Bool`-valued functions);
* `shutil.move` attempt outcomes are an oracle indexed by attempt
  number;
* `re.search(pattern, name, re.IGNORECASE)` is an oracle
  `String → String → Bool` (the regex engine is an external library);
* `time.sleep` calls are counted (seconds slept) rather than performed.

Machine reals in the configuration (`delay_seconds`,
`retry_delay_seconds`) are modelled as rationals; file sizes as
naturals; the sentinel previous-size `-1` as an integer.
-/

/-- Constant `TEMP_EXTS` from the source: extensions that mark a file
as an in-progress download artifact. -/
def TEMP_EXTS : List String := [".crdownload", ".part", ".tmp", ".download"]

/-- Constant `MARKER_FILE`: sentinel marking first-time setup done. -/
def MARKER_FILE : String := ".organized"

/-- Constant `CONFIG_FILE`: name of the JSON configuration file. -/
def CONFIG_FILE : String := ".organize_config.json"

/-- Constant `LOG_FILE`: name of the log file. -/
def LOG_FILE : String := ".organize_log.txt"

/-- Index of the last occurrence of character `c` in `cs`
(Python's `str.rfind`), if any. -/
def rfindChar (c : Char) (cs : List Char) : Option Nat :=
  match cs.reverse.findIdx? (fun x => x == c) with
  | none => none
  | some j => some (cs.length - 1 - j)

/-- Python `pathlib.PurePath.suffix` on a base name: the substring
from the last `.` onward (dot included), provided that dot is neither
the first nor the last character; otherwise the empty string. -/
def pySuffix (name : String) : String :=
  let cs := name.toList
  match rfindChar '.' cs with
  | none => ""
  | some i => if 0 < i ∧ i < cs.length - 1 then String.mk (cs.drop i) else ""

/-- Python `pathlib.PurePath.stem` on a base name: the name with
`pySuffix` removed. -/
def pyStem (name : String) : String :=
  let cs := name.toList
  match rfindChar '.' cs with
  | none => name
  | some i => if 0 < i ∧ i < cs.length - 1 then String.mk (cs.take i) else name

/-- Python `str.lower()`, character by character (`String.toLower`
computes the same string but through byte positions, which the kernel
cannot evaluate; this list-level form is used throughout). -/
def pyLower (s : String) : String := String.mk (s.toList.map Char.toLower)

/-- Result of one `src.stat().st_size` call inside the settle loop:
a size read, a `FileNotFoundError`, or a `PermissionError`. -/
inductive Poll where
  | size (n : Nat)
  | notFound
  | locked
deriving DecidableEq, Repr

/-- Terminal observation of the settle loop.  `samples` counts the
successful size reads performed, `slept` the seconds slept inside the
loop (1 second after a non-settling sample, 2 after a lock denial).
`running` means the supplied poll trace was exhausted with the loop
still going (the Python loop is `while True`). -/
inductive SettleResult where
  | settled (finalSize : Nat) (samples : Nat) (slept : Nat)
  | vanished (samples : Nat) (slept : Nat)
  | running (samples : Nat) (slept : Nat)
deriving DecidableEq, Repr

/-- The settle loop of `DownloadHandler.on_created` (lines 193–206):
`prev_size = -1`, then repeatedly stat the file; break (settled) when
the current size equals the previous sample; on `FileNotFoundError`
return (vanished); on `PermissionError` sleep 2 seconds and retry with
the previous sample unchanged. -/
def settleLoop (prev : Int) (samples slept : Nat) : List Poll → SettleResult
  | [] => .running samples slept
  | .size n :: rest =>
      if (n : Int) = prev then .settled n (samples + 1) slept
      else settleLoop (n : Int) (samples + 1) (slept + 1) rest
  | .notFound :: _ => .vanished samples slept
  | .locked :: rest => settleLoop prev samples (slept + 2) rest

/-- Default category table `DEFAULT_CATEGORIES` from the source. -/
def DEFAULT_CATEGORIES : List (String × List String) :=
  [("images", [".jpg", ".jpeg", ".png", ".gif", ".bmp", ".tiff", ".webp", ".svg"]),
   ("documents", [".pdf", ".doc", ".docx", ".txt", ".rtf", ".odt", ".xls", ".xlsx", ".ppt", ".pptx", ".csv"]),
   ("audio", [".mp3", ".wav", ".flac", ".aac", ".ogg", ".m4a", ".wma"]),
   ("video", [".mp4", ".avi", ".mkv", ".mov", ".wmv", ".flv", ".webm", ".m4v", ".mpg", ".mpeg"]),
   ("archives", [".zip", ".rar", ".7z", ".tar", ".gz", ".bz2", ".xz"]),
   ("executables", [".exe", ".msi", ".apk", ".dmg", ".app", ".deb", ".rpm"]),
   ("code", [".py", ".js", ".html", ".css", ".java", ".c", ".cpp", ".php", ".rb", ".go", ".json", ".xml", ".sql"])]

/-- Per-run configuration record (the fields of `DEFAULT_CONFIG` the
organizing pipeline reads).  The category mapping keeps the Python
dict's insertion order as a list of pairs. -/
structure Config where
  organize_by_date : Bool
  organize_by_type : Bool
  delay_seconds : Rat
  excluded_files : List String
  excluded_patterns : List String
  categories : List (String × List String)
  log_level : String
  keep_original_name : Bool
  rename_duplicates : Bool
  max_retry_attempts : Nat
  retry_delay_seconds : Rat

/-- The built-in default configuration, as a `Config` record. -/
def defaultCfg : Config :=
  { organize_by_date := true
    organize_by_type := true
    delay_seconds := 5
    excluded_files := ["desktop.ini"]
    excluded_patterns := []
    categories := DEFAULT_CATEGORIES
    log_level := "INFO"
    keep_original_name := true
    rename_duplicates := true
    max_retry_attempts := 3
    retry_delay_seconds := 2 }

/-- The `for category, extensions in categories.items()` loop of
`get_category`: return the first label whose extension list contains
`ext`, else fall through. -/
def catLoop (ext : String) : List (String × List String) → String
  | [] => "other"
  | (category, extensions) :: rest =>
      if ext ∈ extensions then category else catLoop ext rest

/-- `get_category` (lines 102–110): lowercase the suffix of the file's
name and look it up in the category mapping, in iteration order;
`"other"` when no category matches. -/
def get_category (name : String) (categories : List (String × List String)) : String :=
  catLoop (pyLower (pySuffix name)) categories

/-- `is_excluded` (lines 113–124).  `research pattern name` is the
oracle for `re.search(pattern, name, re.IGNORECASE)` being a match
(case-insensitive substring search, performed by the external regex
engine).  `name` is the file's base name (`file_path.name`). -/
def is_excluded (research : String → String → Bool) (name : String) (config : Config) : Bool :=
  if name ∈ config.excluded_files then true
  else if config.excluded_patterns.any (fun pattern => research pattern name) then true
  else false

/-- Candidate duplicate name `f"{base_name} ({counter}){extension}"`. -/
def mkDupName (stem ext : String) (counter : Nat) : String :=
  stem ++ " (" ++ toString counter ++ ")" ++ ext

/-- The `while dest_path.exists()` rename loop of
`get_destination_path` (lines 154–157), fuelled: the Python loop is
unbounded, so `none` means the supplied fuel ran out with the loop
still searching.  `exi` is the existence oracle for names in the
destination directory. -/
def findFreeName (exi : String → Bool) (stem ext : String) : String → Nat → Nat → Option String
  | _, _, 0 => none
  | destName, counter, fuel + 1 =>
      if exi destName then findFreeName exi stem ext (mkDupName stem ext counter) (counter + 1) fuel
      else some destName

/-- Destination directory computed by `get_destination_path`
(lines 129–144): the root, then the `YYYY-MM-DD` date folder when
`organize_by_date`, then the category folder when `organize_by_type`.
(The source also creates this directory; the creation side effect is
not needed by any claim.) -/
def destDirOf (config : Config) (today : String) (root : List String) (srcName : String) : List String :=
  let d1 := if config.organize_by_date then root ++ [today] else root
  if config.organize_by_type then d1 ++ [get_category srcName config.categories] else d1

/-- `get_destination_path` (lines 127–159).  `exi dir name` is the
oracle for `(dir / name).exists()`.  Returns the destination directory
and file name; `none` when the fuel for the rename loop ran out. -/
def get_destination_path (exi : List String → String → Bool) (config : Config)
    (today : String) (root : List String) (srcName : String) (fuel : Nat) :
    Option (List String × String) :=
  let destDir := destDirOf config today root srcName
  if config.rename_duplicates && exi destDir srcName then
    (findFreeName (exi destDir) (pyStem srcName) (pySuffix srcName) srcName 1 fuel).map
      (fun n => (destDir, n))
  else some (destDir, srcName)

/-- Python dict assignment `d[k] = v`: replace the value at an
existing key in place, else append the new key at the end. -/
def dictSet {α : Type} : List (String × α) → String → α → List (String × α)
  | [], k, v => [(k, v)]
  | (k0, v0) :: rest, k, v =>
      if k0 = k then (k0, v) :: rest else (k0, v0) :: dictSet rest k v

/-- Python dict lookup `d.get(k)`. -/
def dictGet? {α : Type} : List (String × α) → String → Option α
  | [], _ => none
  | (k0, v0) :: rest, k => if k0 = k then some v0 else dictGet? rest k

/-- Python `base.update(overrides)`: assign every key of `overrides`
into `base`, in iteration order. -/
def dictUpdate {α : Type} (base overrides : List (String × α)) : List (String × α) :=
  overrides.foldl (fun acc p => dictSet acc p.1 p.2) base

/-- Keys of a dict, in iteration order. -/
def dictKeys {α : Type} (d : List (String × α)) : List String :=
  d.map Prod.fst

/-- Running statistics of `DownloadHandler` (`self.stats`). -/
structure Stats where
  total_organized : Nat
  by_category : List (String × Nat)
deriving DecidableEq, Repr

/-- `self.stats["by_category"].get(category, 0)`. -/
def statsGet (d : List (String × Nat)) (category : String) : Nat :=
  (dictGet? d category).getD 0

/-- The statistics update on a successful move (lines 222–223):
increment the total and the category's counter. -/
def bumpStats (stats : Stats) (category : String) : Stats :=
  { total_organized := stats.total_organized + 1
    by_category := dictSet stats.by_category category (statsGet stats.by_category category + 1) }

/-- Outcome of the move-with-retry loop.  `attempts` is the final
value of the Python `attempts` counter (number of failed attempts
observed; the successful attempt, if any, does not increment it),
`sleeps` the number of `retry_delay_seconds` waits, `errorLogged`
whether the final-failure error was logged, and `stats` the updated
statistics. -/
structure MoveResult where
  success : Bool
  attempts : Nat
  sleeps : Nat
  errorLogged : Bool
  stats : Stats
deriving DecidableEq, Repr

/-- The `while not success and attempts < max_attempts` loop of
`on_created` (lines 216–233), structurally recursing on
`remaining = max_attempts - attempts` (the loop variant).
`attemptOk i` is the oracle for the `shutil.move` on the attempt with
counter value `i` succeeding (a failure raises `OSError` or
`PermissionError`).  On success the statistics are bumped for
`category`; on failure the counter is incremented and, unless the
bound has been reached (in which case an error is logged), the loop
sleeps and retries. -/
def moveAttemptsLoop (attemptOk : Nat → Bool) (category : String) (maxAttempts : Nat) :
    Nat → Stats → Nat → MoveResult
  | attempts, stats, 0 =>
      { success := false, attempts := attempts, sleeps := 0, errorLogged := false, stats := stats }
  | attempts, stats, remaining + 1 =>
      if attemptOk attempts then
        { success := true, attempts := attempts, sleeps := 0, errorLogged := false,
          stats := bumpStats stats category }
      else
        let r := moveAttemptsLoop attemptOk category maxAttempts (attempts + 1) stats remaining
        if attempts + 1 ≥ maxAttempts then { r with errorLogged := true }
        else { r with sleeps := r.sleeps + 1 }

/-- The whole move-with-retry phase: the loop entered with
`attempts = 0` and `success = False`. -/
def moveWithRetry (attemptOk : Nat → Bool) (category : String) (maxAttempts : Nat)
    (stats : Stats) : MoveResult :=
  moveAttemptsLoop attemptOk category maxAttempts 0 stats maxAttempts

/-- JSON values as they occur in the configuration file. -/
inductive JVal where
  | jb (b : Bool)
  | jn (q : Rat)
  | js (s : String)
  | jlist (l : List String)
  | jcats (m : List (String × List String))
deriving DecidableEq, Repr

/-- `DEFAULT_CONFIG` from the source, as a JSON object (ordered
key/value list). -/
def DEFAULT_CONFIG : List (String × JVal) :=
  [("organize_by_date", .jb true),
   ("organize_by_type", .jb true),
   ("delay_seconds", .jn 5),
   ("excluded_files", .jlist ["desktop.ini"]),
   ("excluded_patterns", .jlist []),
   ("categories", .jcats DEFAULT_CATEGORIES),
   ("log_level", .js "INFO"),
   ("keep_original_name", .jb true),
   ("rename_duplicates", .jb true),
   ("max_retry_attempts", .jn 3),
   ("retry_delay_seconds", .jn 2)]

/-- Observable state of the configuration file when `load_config`
runs: absent, present but failing to parse, or parsed to a JSON
object. -/
inductive ConfigFileState where
  | absent
  | malformed
  | parsed (entries : List (String × JVal))
deriving DecidableEq, Repr

/-- `load_config` (lines 79–99).  Returns the configuration dict and
whether a fresh default file was written.  A parse failure falls back
to the defaults; a parsed file is merged over the defaults with
`dict.update`; an absent file is created from the defaults. -/
def load_config : ConfigFileState → List (String × JVal) × Bool
  | .parsed entries => (dictUpdate DEFAULT_CONFIG entries, false)
  | .malformed => (DEFAULT_CONFIG, false)
  | .absent => (DEFAULT_CONFIG, true)

/-- Direct children of the watched root and contents of the
`old_download` archive folder, by base name. -/
structure FsState where
  children : List String
  archive : List String
deriving DecidableEq, Repr

/-- Names `perform_first_time_cleanup` skips outright (line 255). -/
def skipNames : List String := ["old_download", MARKER_FILE, CONFIG_FILE, LOG_FILE]

/-- The `for item in downloads.iterdir()` loop of
`perform_first_time_cleanup` (lines 254–267) over a snapshot of the
listing: skip the special names and excluded items, move the rest
into `old_download` when the move succeeds (`moveOk`), and log and
continue when it fails. -/
def cleanupLoop (excluded moveOk : String → Bool) : List String → FsState → FsState
  | [], s => s
  | item :: rest, s =>
      if item ∈ skipNames then cleanupLoop excluded moveOk rest s
      else if excluded item then cleanupLoop excluded moveOk rest s
      else if moveOk item then
        cleanupLoop excluded moveOk rest
          { children := s.children.erase item, archive := s.archive ++ [item] }
      else cleanupLoop excluded moveOk rest s

/-- `perform_first_time_cleanup` (lines 236–271): no-op when the
marker exists; otherwise create `old_download` (reusing it if
present), sweep the listing into it, and touch the marker at the
end regardless of individual failures. -/
def perform_first_time_cleanup (research : String → String → Bool) (moveOk : String → Bool)
    (config : Config) (s : FsState) : FsState :=
  if MARKER_FILE ∈ s.children then s
  else
    let s1 : FsState :=
      if "old_download" ∈ s.children then s
      else { s with children := s.children ++ ["old_download"] }
    let s2 := cleanupLoop (fun item => is_excluded research item config) moveOk s1.children s1
    { s2 with children := s2.children ++ [MARKER_FILE] }

/-- Observable result of `main` (lines 286–349) up to the start of the
watch loop.  A plain `return` from `main` ends the script normally, so
the process exit status is recorded explicitly. -/
structure MainResult where
  errorPrinted : Bool
  exitCode : Nat
  configResult : Option (List (String × JVal) × Bool)
  cleanupResult : Option FsState
  watchStarted : Bool
deriving DecidableEq, Repr

/-- `main` (lines 286–349), to the point where the observer starts:
when the resolved root is not a directory, print the error and
`return` (the script then exits with status 0); otherwise load the
configuration, run the first-time cleanup, and start the watch.
`mkConfig` stands for the use of the loaded dict as the run's
configuration. -/
def mainRun (isDir : Bool) (cf : ConfigFileState) (mkConfig : List (String × JVal) → Config)
    (research : String → String → Bool) (moveOk : String → Bool) (s : FsState) : MainResult :=
  if !isDir then
    { errorPrinted := true, exitCode := 0, configResult := none, cleanupResult := none,
      watchStarted := false }
  else
    let cfgR := load_config cf
    let s2 := perform_first_time_cleanup research moveOk (mkConfig cfgR.1) s
    { errorPrinted := false, exitCode := 0, configResult := some cfgR,
      cleanupResult := some s2, watchStarted := true }

/-- Terminal outcome of one `on_created` invocation. -/
inductive HandlerOutcome where
  | ignoredDirectory
  | skippedTemp
  | skippedExcluded
  | vanishedAbandoned
  | stillPolling
  | destUnresolved
  | moved (destDir : List String) (destName : String)
  | moveFailed
deriving DecidableEq, Repr

/-- Result of one `on_created` invocation: outcome, updated
statistics, and whether an error-level line was logged. -/
structure HandleResult where
  outcome : HandlerOutcome
  stats : Stats
  errorLogged : Bool
deriving DecidableEq, Repr

/-- The move phase of `on_created` (lines 208–233): resolve the
destination, then run the retry loop; the per-category statistic uses
the category of the original source name. -/
def movePhase (exi : List String → String → Bool) (attemptOk : Nat → Bool) (config : Config)
    (today : String) (root : List String) (srcName : String) (fuel : Nat) (stats : Stats) :
    HandleResult :=
  match get_destination_path exi config today root srcName fuel with
  | none => ⟨.destUnresolved, stats, false⟩
  | some (destDir, destName) =>
      let category := get_category srcName config.categories
      let r := moveWithRetry attemptOk category config.max_retry_attempts stats
      if r.success then ⟨.moved destDir destName, r.stats, r.errorLogged⟩
      else ⟨.moveFailed, r.stats, r.errorLogged⟩

/-- `DownloadHandler.on_created` (lines 173–233): ignore directory
events; skip temporary and excluded files; sleep the initial delay and
run the settle loop on the poll trace; abandon on vanish; on settle,
resolve the destination and move with retry. -/
def on_created (research : String → String → Bool) (exi : List String → String → Bool)
    (attemptOk : Nat → Bool) (config : Config) (today : String) (root : List String)
    (isDirectory : Bool) (srcName : String) (polls : List Poll) (fuel : Nat) (stats : Stats) :
    HandleResult :=
  if isDirectory then ⟨.ignoredDirectory, stats, false⟩
  else if (pyLower (pySuffix srcName)) ∈ TEMP_EXTS then ⟨.skippedTemp, stats, false⟩
  else if is_excluded research srcName config then ⟨.skippedExcluded, stats, false⟩
  else
    match settleLoop (-1) 0 0 polls with
    | .vanished _ _ => ⟨.vanishedAbandoned, stats, false⟩
    | .running _ _ => ⟨.stillPolling, stats, false⟩
    | .settled _ _ _ => movePhase exi attemptOk config today root srcName fuel stats

/-! ### Lemmas about the settle loop -/

theorem settleLoop_replicate_locked (n : Nat) (prev : Int) (samples slept : Nat) :
    settleLoop prev samples slept (List.replicate n Poll.locked)
      = SettleResult.running samples (slept + 2 * n) := by
  induction n generalizing slept with
  | zero => simp [settleLoop]
  | succ n ih =>
    rw [List.replicate_succ]
    show settleLoop prev samples (slept + 2) (List.replicate n Poll.locked) = _
    rw [ih]
    congr 1
    ring

theorem settleLoop_settled_bounds :
    ∀ (polls : List Poll) (prev : Int) (samples slept v k t : Nat),
      settleLoop prev samples slept polls = SettleResult.settled v k t →
      samples + 1 ≤ k ∧ slept ≤ t ∧ (prev < 0 → samples + 2 ≤ k ∧ slept + 1 ≤ t) := by
  intro polls
  induction polls with
  | nil => intro prev samples slept v k t h; simp [settleLoop] at h
  | cons p rest ih =>
    intro prev samples slept v k t h
    cases p with
    | size n =>
      by_cases heq : (n : Int) = prev
      · simp [settleLoop, heq] at h
        have hn : (0 : Int) ≤ (n : Int) := Int.natCast_nonneg n
        refine ⟨by omega, by omega, fun hprev => absurd (heq ▸ hn) (by omega)⟩
      · rw [show settleLoop prev samples slept (Poll.size n :: rest)
              = settleLoop (n : Int) (samples + 1) (slept + 1) rest by
            simp [settleLoop, heq]] at h
        obtain ⟨h1, h2, -⟩ := ih (n : Int) (samples + 1) (slept + 1) v k t h
        exact ⟨by omega, by omega, fun _ => ⟨by omega, by omega⟩⟩
    | notFound => simp [settleLoop] at h
    | locked =>
      rw [show settleLoop prev samples slept (Poll.locked :: rest)
            = settleLoop prev samples (slept + 2) rest by simp [settleLoop]] at h
      obtain ⟨h1, h2, h3⟩ := ih prev samples (slept + 2) v k t h
      exact ⟨by omega, by omega, fun hprev => ⟨(h3 hprev).1, by have := (h3 hprev).2; omega⟩⟩

/-- C1.  Settle detection: a size sample equal to the immediately
preceding one settles the loop; an unequal one is re-sampled after a
1-second sleep; `FileNotFoundError` abandons the loop at once as
`vanished`; at the handler level a vanished settle loop makes
`on_created` return with an informational (non-error) log, the
statistics untouched and no move attempted, while a settled loop makes
the pipeline proceed to the move phase. -/
theorem c1_settle_detection :
    (∀ (prev : Int) (samples slept : Nat) (rest : List Poll),
        settleLoop prev samples slept (Poll.notFound :: rest)
          = SettleResult.vanished samples slept)
  ∧ (∀ (prev : Int) (samples slept n : Nat) (rest : List Poll), (n : Int) = prev →
        settleLoop prev samples slept (Poll.size n :: rest)
          = SettleResult.settled n (samples + 1) slept)
  ∧ (∀ (prev : Int) (samples slept n : Nat) (rest : List Poll), (n : Int) ≠ prev →
        settleLoop prev samples slept (Poll.size n :: rest)
          = settleLoop (n : Int) (samples + 1) (slept + 1) rest)
  ∧ (∀ (research : String → String → Bool) (exi : List String → String → Bool)
        (attemptOk : Nat → Bool) (config : Config) (today : String) (root : List String)
        (srcName : String) (polls : List Poll) (fuel : Nat) (stats : Stats) (a b : Nat),
        settleLoop (-1) 0 0 polls = SettleResult.vanished a b →
        (pyLower (pySuffix srcName)) ∉ TEMP_EXTS →
        is_excluded research srcName config = false →
        on_created research exi attemptOk config today root false srcName polls fuel stats
          = ⟨HandlerOutcome.vanishedAbandoned, stats, false⟩)
  ∧ (∀ (research : String → String → Bool) (exi : List String → String → Bool)
        (attemptOk : Nat → Bool) (config : Config) (today : String) (root : List String)
        (srcName : String) (polls : List Poll) (fuel : Nat) (stats : Stats) (v k t : Nat),
        settleLoop (-1) 0 0 polls = SettleResult.settled v k t →
        (pyLower (pySuffix srcName)) ∉ TEMP_EXTS →
        is_excluded research srcName config = false →
        on_created research exi attemptOk config today root false srcName polls fuel stats
          = movePhase exi attemptOk config today root srcName fuel stats) := by
  refine ⟨fun prev samples slept rest => rfl, ?_, ?_, ?_, ?_⟩
  · intro prev samples slept n rest h
    simp [settleLoop, h]
  · intro prev samples slept n rest h
    simp [settleLoop, h]
  · intro research exi attemptOk config today root srcName polls fuel stats a b hs ht he
    simp [on_created, ht, he, hs]
  · intro research exi attemptOk config today root srcName polls fuel stats v k t hs ht he
    simp [on_created, ht, he, hs]

/-- C1 witness: concrete instances of each conjunct. -/
theorem c1_settle_detection_witness :
    settleLoop (-1) 0 0 [Poll.notFound] = SettleResult.vanished 0 0
  ∧ settleLoop 7 1 1 [Poll.size 7] = SettleResult.settled 7 2 1
  ∧ settleLoop (-1) 0 0 [Poll.size 7, Poll.size 7] = settleLoop 7 1 1 [Poll.size 7]
  ∧ on_created (fun _ _ => false) (fun _ _ => false) (fun _ => true) defaultCfg
      "2026-10-12" ["downloads"] false "file.pdf" [Poll.notFound] 5 ⟨0, []⟩
      = ⟨HandlerOutcome.vanishedAbandoned, ⟨0, []⟩, false⟩
  ∧ on_created (fun _ _ => false) (fun _ _ => false) (fun _ => true) defaultCfg
      "2026-10-12" ["downloads"] false "file.pdf" [Poll.size 7, Poll.size 7] 5 ⟨0, []⟩
      = movePhase (fun _ _ => false) (fun _ => true) defaultCfg
          "2026-10-12" ["downloads"] "file.pdf" 5 ⟨0, []⟩ := by
  refine ⟨c1_settle_detection.1 (-1) 0 0 [],
          c1_settle_detection.2.1 7 1 1 7 [] (by norm_num),
          c1_settle_detection.2.2.1 (-1) 0 0 7 [Poll.size 7] (by norm_num),
          c1_settle_detection.2.2.2.1 _ _ _ _ _ _ _ _ _ _ 0 0 (by decide) (by decide) (by decide),
          c1_settle_detection.2.2.2.2 _ _ _ _ _ _ _ _ _ _ 7 2 1 (by decide) (by decide) (by decide)⟩

/-- C2 counterexample: one thousand consecutive lock denials and the
settle loop has still not reached any terminal outcome — there is no
bounded number of lock retries after which the event is abandoned. -/
theorem c2_lock_retry_counterexample :
    settleLoop (-1) 0 0 (List.replicate 1000 Poll.locked) = SettleResult.running 0 2000 := by
  have h := settleLoop_replicate_locked 1000 (-1) 0 0
  norm_num at h
  exact h

/-- C2 (amended).  On a `PermissionError` the detector logs, sleeps
2 seconds, and resamples with the previous sample retained, with no
retry bound: after any number `n` of consecutive lock denials the loop
is still polling (it has slept `2 * n` seconds and reached no terminal
outcome), so the settle loop does not terminate while the file stays
locked, and no `LockedRetryExceeded` outcome exists. -/
theorem c2_lock_retry_unbounded :
    ∀ (n : Nat) (prev : Int) (samples slept : Nat),
      settleLoop prev samples slept (List.replicate n Poll.locked)
        = SettleResult.running samples (slept + 2 * n) :=
  fun n prev samples slept => settleLoop_replicate_locked n prev samples slept

/-- C10.  The previous-size tracker starts at `-1`, which no natural
file size casts to, so the first size sample can never settle the
loop; any settled run from the initial state has taken at least two
size samples and slept at least one 1-second interval between them. -/
theorem c10_two_samples_before_move :
    (∀ (n : Nat) (rest : List Poll),
        settleLoop (-1) 0 0 (Poll.size n :: rest) = settleLoop (n : Int) 1 1 rest)
  ∧ (∀ (polls : List Poll) (v k t : Nat),
        settleLoop (-1) 0 0 polls = SettleResult.settled v k t → 2 ≤ k ∧ 1 ≤ t) := by
  constructor
  · intro n rest
    simp [settleLoop]
  · intro polls v k t h
    obtain ⟨-, -, h3⟩ := settleLoop_settled_bounds polls (-1) 0 0 v k t h
    obtain ⟨h4, h5⟩ := h3 (by norm_num)
    omega

/-- C10 witness: a static file sampled twice at size 5 settles with
exactly two samples and one sleep. -/
theorem c10_two_samples_before_move_witness :
    settleLoop (-1) 0 0 [Poll.size 5, Poll.size 5] = settleLoop 5 1 1 [Poll.size 5]
  ∧ 2 ≤ 2 ∧ 1 ≤ 1 := by
  refine ⟨c10_two_samples_before_move.1 5 [Poll.size 5], ?_⟩
  exact c10_two_samples_before_move.2 [Poll.size 5, Poll.size 5] 5 2 1 (by decide)

/-! ### Lemmas about Python-dict operations -/

theorem dictGet?_dictSet_self {α : Type} (d : List (String × α)) (k : String) (v : α) :
    dictGet? (dictSet d k v) k = some v := by
  induction d with
  | nil => simp [dictSet, dictGet?]
  | cons p rest ih =>
    obtain ⟨k0, v0⟩ := p
    by_cases h : k0 = k
    · simp [dictSet, dictGet?, h]
    · simp [dictSet, dictGet?, h, ih]

theorem dictGet?_dictSet_ne {α : Type} (d : List (String × α)) (k k' : String) (v : α)
    (h : k' ≠ k) : dictGet? (dictSet d k v) k' = dictGet? d k' := by
  induction d with
  | nil => simp [dictSet, dictGet?, Ne.symm h]
  | cons p rest ih =>
    obtain ⟨k0, v0⟩ := p
    by_cases h0 : k0 = k
    · subst h0
      simp [dictSet, dictGet?, Ne.symm h]
    · simp only [dictSet, if_neg h0]
      by_cases h1 : k0 = k'
      · simp [dictGet?, h1]
      · simp [dictGet?, h1, ih]

theorem dictKeys_cons {α : Type} (p : String × α) (rest : List (String × α)) :
    dictKeys (p :: rest) = p.1 :: dictKeys rest := rfl

theorem dictGet?_isSome_iff_mem {α : Type} (d : List (String × α)) (k : String) :
    (dictGet? d k).isSome ↔ k ∈ dictKeys d := by
  induction d with
  | nil => simp [dictGet?, dictKeys]
  | cons p rest ih =>
    obtain ⟨k0, v0⟩ := p
    by_cases h : k0 = k
    · subst h
      simp [dictGet?, dictKeys_cons]
    · simp only [dictGet?, if_neg h]
      rw [ih, dictKeys_cons]
      simp [List.mem_cons, Ne.symm h]

theorem mem_dictKeys_dictSet_self {α : Type} (d : List (String × α)) (k : String) (v : α) :
    k ∈ dictKeys (dictSet d k v) := by
  rw [← dictGet?_isSome_iff_mem, dictGet?_dictSet_self]
  rfl

theorem mem_dictKeys_dictSet_of_mem {α : Type} (d : List (String × α)) (k k' : String) (v : α)
    (h : k' ∈ dictKeys d) : k' ∈ dictKeys (dictSet d k v) := by
  by_cases hk : k' = k
  · subst hk; exact mem_dictKeys_dictSet_self d k' v
  · rw [← dictGet?_isSome_iff_mem, dictGet?_dictSet_ne d k k' v hk,
      dictGet?_isSome_iff_mem]
    exact h

theorem dictUpdate_cons {α : Type} (base : List (String × α)) (k : String) (v : α)
    (rest : List (String × α)) :
    dictUpdate base ((k, v) :: rest) = dictUpdate (dictSet base k v) rest := rfl

theorem dictGet?_dictUpdate_not_mem {α : Type} (ov : List (String × α)) :
    ∀ (base : List (String × α)) (k : String), k ∉ dictKeys ov →
      dictGet? (dictUpdate base ov) k = dictGet? base k := by
  induction ov with
  | nil => intro base k _; rfl
  | cons p rest ih =>
    intro base k hk
    obtain ⟨k0, v0⟩ := p
    rw [dictKeys_cons, List.mem_cons] at hk
    push_neg at hk
    rw [dictUpdate_cons, ih (dictSet base k0 v0) k hk.2,
      dictGet?_dictSet_ne base k0 k v0 hk.1]

theorem dictGet?_dictUpdate_mem {α : Type} (ov : List (String × α)) :
    ∀ (base : List (String × α)) (k : String) (v : α), (dictKeys ov).Nodup → (k, v) ∈ ov →
      dictGet? (dictUpdate base ov) k = some v := by
  induction ov with
  | nil => intro base k v _ h; simp at h
  | cons p rest ih =>
    intro base k v hnd hmem
    obtain ⟨k0, v0⟩ := p
    rw [dictKeys_cons, List.nodup_cons] at hnd
    rcases List.mem_cons.mp hmem with heq | htail
    · obtain ⟨rfl, rfl⟩ := Prod.mk.injEq .. ▸ heq
      rw [dictUpdate_cons, dictGet?_dictUpdate_not_mem rest (dictSet base k v) k hnd.1,
        dictGet?_dictSet_self]
    · exact dictUpdate_cons .. ▸ ih (dictSet base k0 v0) k v hnd.2 htail

theorem mem_dictKeys_dictUpdate_left {α : Type} (ov : List (String × α)) :
    ∀ (base : List (String × α)) (k : String), k ∈ dictKeys base →
      k ∈ dictKeys (dictUpdate base ov) := by
  induction ov with
  | nil => intro base k h; exact h
  | cons p rest ih =>
    intro base k h
    rw [show dictUpdate base (p :: rest) = dictUpdate (dictSet base p.1 p.2) rest from rfl]
    exact ih _ k (mem_dictKeys_dictSet_of_mem base p.1 k p.2 h)

theorem mem_dictKeys_dictUpdate_right {α : Type} (ov : List (String × α)) :
    ∀ (base : List (String × α)) (k : String), k ∈ dictKeys ov →
      k ∈ dictKeys (dictUpdate base ov) := by
  induction ov with
  | nil => intro base k h; simp [dictKeys] at h
  | cons p rest ih =>
    intro base k h
    obtain ⟨k0, v0⟩ := p
    rw [dictUpdate_cons]
    rw [dictKeys_cons, List.mem_cons] at h
    rcases h with heq | htail
    · exact mem_dictKeys_dictUpdate_left rest _ k
        (heq ▸ mem_dictKeys_dictSet_self base k0 v0)
    · exact ih _ k htail

/-! ### Lemmas about the move-retry loop -/

theorem moveAttemptsLoop_success (attemptOk : Nat → Bool) (category : String)
    (maxAttempts : Nat) :
    ∀ (N attempts remaining : Nat) (stats : Stats),
      attempts + remaining = maxAttempts →
      N < remaining →
      attemptOk (attempts + N) = true →
      (∀ i, i < N → attemptOk (attempts + i) = false) →
      moveAttemptsLoop attemptOk category maxAttempts attempts stats remaining
        = { success := true, attempts := attempts + N, sleeps := N, errorLogged := false,
            stats := bumpStats stats category } := by
  intro N
  induction N with
  | zero =>
    intro attempts remaining stats hinv hlt hok _
    obtain ⟨r, rfl⟩ : ∃ r, remaining = r + 1 := ⟨remaining - 1, by omega⟩
    simp only [Nat.add_zero] at hok
    simp [moveAttemptsLoop, hok]
  | succ N ih =>
    intro attempts remaining stats hinv hlt hok hfail
    obtain ⟨r, rfl⟩ : ∃ r, remaining = r + 1 := ⟨remaining - 1, by omega⟩
    have h0 : attemptOk attempts = false := by simpa using hfail 0 (by omega)
    have hge : ¬ (attempts + 1 ≥ maxAttempts) := by omega
    have hstep := ih (attempts + 1) r stats (by omega) (by omega)
      (by rw [show attempts + 1 + N = attempts + (N + 1) by omega]; exact hok)
      (fun i hi => by
        rw [show attempts + 1 + i = attempts + (i + 1) by omega]
        exact hfail (i + 1) (by omega))
    simp only [moveAttemptsLoop, h0, Bool.false_eq_true, if_false, hstep, if_neg hge]
    rw [show attempts + 1 + N = attempts + (N + 1) by omega]

theorem moveAttemptsLoop_allFail (attemptOk : Nat → Bool) (category : String)
    (maxAttempts : Nat) :
    ∀ (remaining attempts : Nat) (stats : Stats),
      attempts + remaining = maxAttempts →
      1 ≤ remaining →
      (∀ i, i < remaining → attemptOk (attempts + i) = false) →
      moveAttemptsLoop attemptOk category maxAttempts attempts stats remaining
        = { success := false, attempts := maxAttempts, sleeps := remaining - 1,
            errorLogged := true, stats := stats } := by
  intro remaining
  induction remaining with
  | zero => intro attempts stats _ hone _; omega
  | succ r ih =>
    intro attempts stats hinv _ hfail
    have h0 : attemptOk attempts = false := by simpa using hfail 0 (by omega)
    by_cases hr : r = 0
    · subst hr
      have hge : attempts + 1 ≥ maxAttempts := by omega
      simp only [moveAttemptsLoop, h0, Bool.false_eq_true, if_false, if_pos hge]
      have : attempts + 1 = maxAttempts := by omega
      simp [this]
    · have hge : ¬ (attempts + 1 ≥ maxAttempts) := by omega
      have hstep := ih (attempts + 1) stats (by omega) (by omega)
        (fun i hi => by
          rw [show attempts + 1 + i = attempts + (i + 1) by omega]
          exact hfail (i + 1) (by omega))
      simp only [moveAttemptsLoop, h0, Bool.false_eq_true, if_false, hstep, if_neg hge]
      have : r - 1 + 1 = r + 1 - 1 := by omega
      simp [this]

/-- C3.  The mover performs at most `max_retry_attempts` move
attempts, sleeping `retry_delay_seconds` between failed attempts: if
the first success is attempt number `N + 1` (attempt index `N`, with
`N < max_retry_attempts`), the loop stops successfully after `N`
failures and `N` sleeps and the statistics gain exactly one on the
total and one on the moved file's category, every other category
unchanged; if all `max_retry_attempts` attempts fail, the loop stops
with `success := false` (the source file was never moved), the error
is logged, there were `max_retry_attempts - 1` inter-attempt sleeps,
and the statistics are exactly unchanged. -/
theorem c3_mover_retry :
    (∀ (attemptOk : Nat → Bool) (category : String) (maxAttempts : Nat) (stats : Stats)
        (N : Nat),
        N < maxAttempts →
        attemptOk N = true →
        (∀ i, i < N → attemptOk i = false) →
        moveWithRetry attemptOk category maxAttempts stats
          = { success := true, attempts := N, sleeps := N, errorLogged := false,
              stats := bumpStats stats category }
        ∧ (bumpStats stats category).total_organized = stats.total_organized + 1
        ∧ statsGet (bumpStats stats category).by_category category
            = statsGet stats.by_category category + 1
        ∧ ∀ c, c ≠ category →
            statsGet (bumpStats stats category).by_category c = statsGet stats.by_category c)
  ∧ (∀ (attemptOk : Nat → Bool) (category : String) (maxAttempts : Nat) (stats : Stats),
        1 ≤ maxAttempts →
        (∀ i, i < maxAttempts → attemptOk i = false) →
        moveWithRetry attemptOk category maxAttempts stats
          = { success := false, attempts := maxAttempts, sleeps := maxAttempts - 1,
              errorLogged := true, stats := stats }) := by
  constructor
  · intro attemptOk category maxAttempts stats N hN hok hfail
    refine ⟨?_, rfl, ?_, ?_⟩
    · have h := moveAttemptsLoop_success attemptOk category maxAttempts N 0 maxAttempts stats
        (by omega) hN (by simpa using hok) (fun i hi => by simpa using hfail i hi)
      simpa [moveWithRetry] using h
    · simp [bumpStats, statsGet, dictGet?_dictSet_self]
    · intro c hc
      simp [bumpStats, statsGet, dictGet?_dictSet_ne stats.by_category category c _ hc]
  · intro attemptOk category maxAttempts stats hone hfail
    have h := moveAttemptsLoop_allFail attemptOk category maxAttempts maxAttempts 0 stats
      (by omega) hone (fun i hi => by simpa using hfail i hi)
    simpa [moveWithRetry] using h

/-- C3 witness: with three allowed attempts, a move that succeeds on
the second attempt bumps the statistics once; a move that always fails
leaves them untouched. -/
theorem c3_mover_retry_witness :
    moveWithRetry (fun i => decide (i = 1)) "documents" 3 ⟨0, []⟩
      = { success := true, attempts := 1, sleeps := 1, errorLogged := false,
          stats := bumpStats ⟨0, []⟩ "documents" }
  ∧ moveWithRetry (fun _ => false) "documents" 3 ⟨0, []⟩
      = { success := false, attempts := 3, sleeps := 2, errorLogged := true,
          stats := ⟨0, []⟩ } := by
  constructor
  · exact (c3_mover_retry.1 (fun i => decide (i = 1)) "documents" 3 ⟨0, []⟩ 1
      (by omega) (by decide) (by decide)).1
  · exact c3_mover_retry.2 (fun _ => false) "documents" 3 ⟨0, []⟩ (by omega)
      (fun i _ => rfl)

/-! ### Lemmas about the classifier loop -/

theorem catLoop_first :
    ∀ (l : List (String × List String)) (ext : String) (i : Nat) (hi : i < l.length),
      ext ∈ (l.get ⟨i, hi⟩).2 →
      (∀ (j : Nat) (hj : j < i), ext ∉ (l.get ⟨j, Nat.lt_trans hj hi⟩).2) →
      catLoop ext l = (l.get ⟨i, hi⟩).1 := by
  intro l ext
  induction l with
  | nil => intro i hi; simp at hi
  | cons c rest ih =>
    intro i hi hmem hmin
    obtain ⟨label, exts⟩ := c
    cases i with
    | zero =>
      simp only [List.get] at hmem ⊢
      simp [catLoop, hmem]
    | succ i =>
      have hnot : ext ∉ exts := by simpa using hmin 0 (Nat.succ_pos i)
      simp only [catLoop, if_neg hnot]
      simp only [List.get] at hmem ⊢
      exact ih i (by simpa using hi) hmem (fun j hj => by simpa using hmin (j + 1) (by omega))

theorem catLoop_no_match :
    ∀ (l : List (String × List String)) (ext : String),
      (∀ c ∈ l, ext ∉ c.2) → catLoop ext l = "other" := by
  intro l ext
  induction l with
  | nil => intro; rfl
  | cons c rest ih =>
    intro h
    obtain ⟨label, exts⟩ := c
    have hnot : ext ∉ exts := h (label, exts) (List.mem_cons_self _ _)
    simp only [catLoop, if_neg hnot]
    exact ih (fun c hc => h c (List.mem_cons_of_mem _ hc))

/-- C5.  Classification: `get_category` lowercases the name's
extension and returns the label of the first category, in mapping
iteration order, whose extension list contains it, and the sentinel
`"other"` when no category's list contains it. -/
theorem c5_classification :
    ∀ (name : String) (categories : List (String × List String)),
      (∀ (i : Nat) (hi : i < categories.length),
        pyLower (pySuffix name) ∈ (categories.get ⟨i, hi⟩).2 →
        (∀ (j : Nat) (hj : j < i),
          pyLower (pySuffix name) ∉ (categories.get ⟨j, Nat.lt_trans hj hi⟩).2) →
        get_category name categories = (categories.get ⟨i, hi⟩).1)
      ∧ ((∀ c ∈ categories, pyLower (pySuffix name) ∉ c.2) →
        get_category name categories = "other") := by
  intro name categories
  constructor
  · intro i hi hmem hmin
    exact catLoop_first categories (pyLower (pySuffix name)) i hi hmem hmin
  · intro h
    exact catLoop_no_match categories (pyLower (pySuffix name)) h

/-- C5 witness: `.PNG` lands in `"images"` (first matching category of
the default table), and an unknown extension lands in `"other"`. -/
theorem c5_classification_witness :
    get_category "photo.PNG" DEFAULT_CATEGORIES = "images"
  ∧ get_category "notes.xyz" DEFAULT_CATEGORIES = "other" := by
  constructor
  · have h := (c5_classification "photo.PNG" DEFAULT_CATEGORIES).1 0 (by decide)
      (by decide) (fun j hj => absurd hj (Nat.not_lt_zero j))
    exact h.trans (by decide)
  · exact (c5_classification "notes.xyz" DEFAULT_CATEGORIES).2 (by decide)

/-- C6.  Exclusion filtering: `is_excluded` holds exactly when the
base name is literally (case-sensitively) one of `excluded_files`, or
some pattern of `excluded_patterns` matches the base name under the
`re.search`/`re.IGNORECASE` oracle; in particular a name listed in
`excluded_files` is excluded whatever the pattern list and the
pattern oracle are. -/
theorem c6_exclusion_filter :
    (∀ (research : String → String → Bool) (name : String) (config : Config),
        is_excluded research name config = true ↔
          (name ∈ config.excluded_files ∨
            ∃ p ∈ config.excluded_patterns, research p name = true))
  ∧ (∀ (research : String → String → Bool) (name : String) (config : Config),
        name ∈ config.excluded_files →
        is_excluded research name config = true) := by
  constructor
  · intro research name config
    by_cases hm : name ∈ config.excluded_files
    · simp [is_excluded, hm]
    · simp [is_excluded, hm, List.any_eq_true]
  · intro research name config h
    simp [is_excluded, h]

/-- C6 witness: `desktop.ini` is in the default excluded-names list
and is excluded even with no patterns and a never-matching oracle; a
pattern hit excludes a name not in the list. -/
theorem c6_exclusion_filter_witness :
    is_excluded (fun _ _ => false) "desktop.ini" defaultCfg = true
  ∧ (is_excluded (fun _ _ => true) "draft.tmp2"
      { defaultCfg with excluded_patterns := ["tmp"] } = true ↔
      ("draft.tmp2" ∈ ({ defaultCfg with excluded_patterns := ["tmp"] } : Config).excluded_files
        ∨ ∃ p ∈ ({ defaultCfg with excluded_patterns := ["tmp"] } : Config).excluded_patterns,
            (fun _ _ => true) p "draft.tmp2" = true)) := by
  refine ⟨c6_exclusion_filter.2 (fun _ _ => false) "desktop.ini" defaultCfg (by decide), ?_⟩
  exact c6_exclusion_filter.1 (fun _ _ => true) "draft.tmp2"
    { defaultCfg with excluded_patterns := ["tmp"] }

/-! ### Lemmas about the duplicate-rename loop -/

theorem findFreeName_found (exi : String → Bool) (stem ext : String) :
    ∀ (k counter fuel : Nat) (curr : String),
      k + 2 ≤ fuel →
      exi curr = true →
      (∀ j, j < k → exi (mkDupName stem ext (counter + j)) = true) →
      exi (mkDupName stem ext (counter + k)) = false →
      findFreeName exi stem ext curr counter fuel
        = some (mkDupName stem ext (counter + k)) := by
  intro k
  induction k with
  | zero =>
    intro counter fuel curr hfuel hcurr _ hfree
    obtain ⟨f, rfl⟩ : ∃ f, fuel = f + 2 := ⟨fuel - 2, by omega⟩
    simp only [Nat.add_zero] at hfree ⊢
    simp [findFreeName, hcurr, hfree]
  | succ k ih =>
    intro counter fuel curr hfuel hcurr hocc hfree
    obtain ⟨f, rfl⟩ : ∃ f, fuel = f + 1 := ⟨fuel - 1, by omega⟩
    have h0 : exi (mkDupName stem ext counter) = true := by simpa using hocc 0 (by omega)
    have hrec := ih (counter + 1) f (mkDupName stem ext counter) (by omega) h0
      (fun j hj => by
        rw [show counter + 1 + j = counter + (j + 1) by omega]
        exact hocc (j + 1) (by omega))
      (by rw [show counter + 1 + k = counter + (k + 1) by omega]; exact hfree)
    simp only [findFreeName, hcurr, if_true, hrec]
    rw [show counter + 1 + k = counter + (k + 1) by omega]

/-- C4.  Destination resolution: with `rename_duplicates` on and the
candidate name occupied, the resolver returns the stem with ` (c)`
inserted before the extension for the least counter `c = 1 + k`
whose name is free (given enough fuel for the unbounded source loop),
and that returned name is not an existing file; with
`rename_duplicates` off, the candidate path is returned unchanged even
when it collides. -/
theorem c4_destination_resolution :
    (∀ (exi : List String → String → Bool) (config : Config) (today : String)
        (root : List String) (srcName : String) (fuel k : Nat),
        config.rename_duplicates = true →
        exi (destDirOf config today root srcName) srcName = true →
        (∀ j, j < k →
          exi (destDirOf config today root srcName)
            (mkDupName (pyStem srcName) (pySuffix srcName) (1 + j)) = true) →
        exi (destDirOf config today root srcName)
          (mkDupName (pyStem srcName) (pySuffix srcName) (1 + k)) = false →
        k + 2 ≤ fuel →
        get_destination_path exi config today root srcName fuel
          = some (destDirOf config today root srcName,
              mkDupName (pyStem srcName) (pySuffix srcName) (1 + k))
        ∧ exi (destDirOf config today root srcName)
            (mkDupName (pyStem srcName) (pySuffix srcName) (1 + k)) = false)
  ∧ (∀ (exi : List String → String → Bool) (config : Config) (today : String)
        (root : List String) (srcName : String) (fuel : Nat),
        config.rename_duplicates = false →
        get_destination_path exi config today root srcName fuel
          = some (destDirOf config today root srcName, srcName)) := by
  constructor
  · intro exi config today root srcName fuel k hdup hexi hocc hfree hfuel
    refine ⟨?_, hfree⟩
    have h := findFreeName_found (exi (destDirOf config today root srcName))
      (pyStem srcName) (pySuffix srcName) k 1 fuel srcName hfuel hexi hocc hfree
    simp [get_destination_path, hdup, hexi, h]
  · intro exi config today root srcName fuel hdup
    simp [get_destination_path, hdup]

/-- C4 witness: `report.pdf` and `report (1).pdf` both exist in the
destination folder, so the resolver returns `report (2).pdf`; with
renaming disabled it returns the colliding `report.pdf`. -/
theorem c4_destination_resolution_witness :
    get_destination_path
        (fun _ n => n == "report.pdf" || n == "report (1).pdf") defaultCfg
        "2026-10-12" ["downloads"] "report.pdf" 4
      = some (destDirOf defaultCfg "2026-10-12" ["downloads"] "report.pdf",
          mkDupName (pyStem "report.pdf") (pySuffix "report.pdf") (1 + 1))
  ∧ get_destination_path
        (fun _ n => n == "report.pdf" || n == "report (1).pdf")
        { defaultCfg with rename_duplicates := false }
        "2026-10-12" ["downloads"] "report.pdf" 4
      = some (destDirOf { defaultCfg with rename_duplicates := false }
          "2026-10-12" ["downloads"] "report.pdf", "report.pdf") := by
  constructor
  · exact (c4_destination_resolution.1
      (fun _ n => n == "report.pdf" || n == "report (1).pdf") defaultCfg
      "2026-10-12" ["downloads"] "report.pdf" 4 1 rfl (by decide) (by decide)
      (by decide) (by omega)).1
  · exact c4_destination_resolution.2
      (fun _ n => n == "report.pdf" || n == "report (1).pdf")
      { defaultCfg with rename_duplicates := false }
      "2026-10-12" ["downloads"] "report.pdf" 4 rfl

/-! ### Lemmas about the first-run archiver -/

theorem cleanupLoop_archive_mono (excluded moveOk : String → Bool) :
    ∀ (l : List String) (s : FsState) (x : String), x ∈ s.archive →
      x ∈ (cleanupLoop excluded moveOk l s).archive := by
  intro l
  induction l with
  | nil => intro s x hx; exact hx
  | cons item rest ih =>
    intro s x hx
    by_cases h1 : item ∈ skipNames
    · simpa [cleanupLoop, h1] using ih s x hx
    · by_cases h2 : excluded item
      · simpa [cleanupLoop, h1, h2] using ih s x hx
      · by_cases h3 : moveOk item
        · simp only [cleanupLoop, if_neg h1, h2, Bool.false_eq_true, if_false, h3, if_true]
          exact ih _ x (by simp [hx])
        · simpa [cleanupLoop, h1, h2, h3] using ih s x hx

theorem cleanupLoop_moves (excluded moveOk : String → Bool) :
    ∀ (l : List String) (s : FsState) (item : String),
      item ∈ l → item ∉ skipNames → excluded item = false → moveOk item = true →
      item ∈ (cleanupLoop excluded moveOk l s).archive := by
  intro l
  induction l with
  | nil => intro s item h; simp at h
  | cons j rest ih =>
    intro s item hmem hskip hexcl hmv
    rcases List.mem_cons.mp hmem with rfl | htail
    · simp only [cleanupLoop, if_neg hskip, hexcl, Bool.false_eq_true, if_false, hmv, if_true]
      exact cleanupLoop_archive_mono excluded moveOk rest _ item (by simp)
    · by_cases h1 : j ∈ skipNames
      · simpa [cleanupLoop, h1] using ih s item htail hskip hexcl hmv
      · by_cases h2 : excluded j
        · simpa [cleanupLoop, h1, h2] using ih s item htail hskip hexcl hmv
        · by_cases h3 : moveOk j
          · simp only [cleanupLoop, if_neg h1, h2, Bool.false_eq_true, if_false, h3, if_true]
            exact ih _ item htail hskip hexcl hmv
          · simpa [cleanupLoop, h1, h2, h3] using ih s item htail hskip hexcl hmv

theorem cleanupLoop_keeps (excluded moveOk : String → Bool) :
    ∀ (l : List String) (s : FsState) (item : String),
      item ∈ s.children → moveOk item = false →
      item ∈ (cleanupLoop excluded moveOk l s).children := by
  intro l
  induction l with
  | nil => intro s item hx _; exact hx
  | cons j rest ih =>
    intro s item hx hmv
    by_cases h1 : j ∈ skipNames
    · simpa [cleanupLoop, h1] using ih s item hx hmv
    · by_cases h2 : excluded j
      · simpa [cleanupLoop, h1, h2] using ih s item hx hmv
      · by_cases h3 : moveOk j
        · simp only [cleanupLoop, if_neg h1, h2, Bool.false_eq_true, if_false, h3, if_true]
          refine ih _ item ?_ hmv
          have hne : item ≠ j := fun he => by rw [he, h3] at hmv; exact Bool.true_eq_false.mp hmv
          exact (List.mem_erase_of_ne hne).mpr hx
        · simpa [cleanupLoop, h1, h2, h3] using ih s item hx hmv

theorem cleanup_noop_of_marker (research : String → String → Bool) (moveOk : String → Bool)
    (config : Config) (s : FsState) (h : MARKER_FILE ∈ s.children) :
    perform_first_time_cleanup research moveOk config s = s := by
  simp [perform_first_time_cleanup, h]

theorem marker_mem_after_cleanup (research : String → String → Bool) (moveOk : String → Bool)
    (config : Config) (s : FsState) :
    MARKER_FILE ∈ (perform_first_time_cleanup research moveOk config s).children := by
  by_cases h : MARKER_FILE ∈ s.children
  · simpa [cleanup_noop_of_marker research moveOk config s h] using h
  · simp [perform_first_time_cleanup, h]

/-- C7.  First-run archiving is idempotent via the marker: with the
marker present the pass is the identity; a pass always leaves the
marker present; running the pass twice equals running it once; absent
the marker, every direct child that is not one of the special names
(`old_download`, marker, config, log) and not excluded, and whose move
succeeds, ends up in the archive; a child whose move fails stays among
the root's children (the pass continues past the failure, and the
marker is still created). -/
theorem c7_first_run_idempotent :
    (∀ (research : String → String → Bool) (moveOk : String → Bool) (config : Config)
        (s : FsState), MARKER_FILE ∈ s.children →
        perform_first_time_cleanup research moveOk config s = s)
  ∧ (∀ (research : String → String → Bool) (moveOk : String → Bool) (config : Config)
        (s : FsState),
        MARKER_FILE ∈ (perform_first_time_cleanup research moveOk config s).children)
  ∧ (∀ (research : String → String → Bool) (moveOk : String → Bool) (config : Config)
        (s : FsState),
        perform_first_time_cleanup research moveOk config
            (perform_first_time_cleanup research moveOk config s)
          = perform_first_time_cleanup research moveOk config s)
  ∧ (∀ (research : String → String → Bool) (moveOk : String → Bool) (config : Config)
        (s : FsState) (item : String),
        MARKER_FILE ∉ s.children →
        item ∈ s.children → item ∉ skipNames →
        is_excluded research item config = false → moveOk item = true →
        item ∈ (perform_first_time_cleanup research moveOk config s).archive)
  ∧ (∀ (research : String → String → Bool) (moveOk : String → Bool) (config : Config)
        (s : FsState) (item : String),
        item ∈ s.children → moveOk item = false →
        item ∈ (perform_first_time_cleanup research moveOk config s).children) := by
  refine ⟨cleanup_noop_of_marker, marker_mem_after_cleanup, ?_, ?_, ?_⟩
  · intro research moveOk config s
    exact cleanup_noop_of_marker research moveOk config _
      (marker_mem_after_cleanup research moveOk config s)
  · intro research moveOk config s item hmark hmem hskip hexcl hmv
    rw [perform_first_time_cleanup, if_neg hmark]
    by_cases hod : "old_download" ∈ s.children
    · simp only [if_pos hod]
      exact cleanupLoop_moves _ moveOk s.children s item hmem hskip hexcl hmv
    · simp only [if_neg hod]
      exact cleanupLoop_moves _ moveOk (s.children ++ ["old_download"]) _ item
        (List.mem_append_left _ hmem) hskip hexcl hmv
  · intro research moveOk config s item hmem hmv
    by_cases hmark : MARKER_FILE ∈ s.children
    · simpa [cleanup_noop_of_marker research moveOk config s hmark] using hmem
    · rw [perform_first_time_cleanup, if_neg hmark]
      by_cases hod : "old_download" ∈ s.children
      · simp only [if_pos hod, List.mem_append]
        exact Or.inl (cleanupLoop_keeps _ moveOk s.children s item hmem hmv)
      · simp only [if_neg hod, List.mem_append]
        exact Or.inl (cleanupLoop_keeps _ moveOk (s.children ++ ["old_download"]) _ item
          (List.mem_append_left _ hmem) hmv)

/-- C7 witness: with a marker the pass is a no-op; without one,
`a.txt` is archived, `locked.bin` (whose move fails) stays in the
root, and the pass is idempotent with the marker present after it. -/
theorem c7_first_run_idempotent_witness :
    perform_first_time_cleanup (fun _ _ => false) (fun n => !(n == "locked.bin"))
        defaultCfg ⟨[".organized"], []⟩ = ⟨[".organized"], []⟩
  ∧ MARKER_FILE ∈ (perform_first_time_cleanup (fun _ _ => false)
      (fun n => !(n == "locked.bin")) defaultCfg ⟨["a.txt", "locked.bin"], []⟩).children
  ∧ perform_first_time_cleanup (fun _ _ => false) (fun n => !(n == "locked.bin")) defaultCfg
      (perform_first_time_cleanup (fun _ _ => false) (fun n => !(n == "locked.bin"))
        defaultCfg ⟨["a.txt", "locked.bin"], []⟩)
      = perform_first_time_cleanup (fun _ _ => false) (fun n => !(n == "locked.bin"))
          defaultCfg ⟨["a.txt", "locked.bin"], []⟩
  ∧ "a.txt" ∈ (perform_first_time_cleanup (fun _ _ => false)
      (fun n => !(n == "locked.bin")) defaultCfg ⟨["a.txt", "locked.bin"], []⟩).archive
  ∧ "locked.bin" ∈ (perform_first_time_cleanup (fun _ _ => false)
      (fun n => !(n == "locked.bin")) defaultCfg ⟨["a.txt", "locked.bin"], []⟩).children := by
  refine ⟨c7_first_run_idempotent.1 _ _ defaultCfg _ (by decide),
          c7_first_run_idempotent.2.1 _ _ defaultCfg _,
          c7_first_run_idempotent.2.2.1 _ _ defaultCfg _,
          c7_first_run_idempotent.2.2.2.1 _ _ defaultCfg _ "a.txt" (by decide) (by decide)
            (by decide) (by decide) (by decide),
          c7_first_run_idempotent.2.2.2.2 _ _ defaultCfg _ "locked.bin" (by decide) (by decide)⟩

/-! ### Configuration loading -/

/-- C9.  `load_config`: a malformed file falls back to the built-in
defaults without writing a file (and without crashing — the function
is total); an absent file yields the defaults and writes a fresh
default file; a parsed file is merged over the defaults so that every
default key is present, keys in the file override the defaults,
missing keys fall back to the defaults, and unrecognized keys from
the file are preserved. -/
theorem c9_config_loading :
    load_config ConfigFileState.malformed = (DEFAULT_CONFIG, false)
  ∧ load_config ConfigFileState.absent = (DEFAULT_CONFIG, true)
  ∧ (∀ (entries : List (String × JVal)),
        (dictKeys entries).Nodup →
        (∀ k, k ∈ dictKeys DEFAULT_CONFIG →
          k ∈ dictKeys (load_config (ConfigFileState.parsed entries)).1)
        ∧ (∀ k v, (k, v) ∈ entries →
            dictGet? (load_config (ConfigFileState.parsed entries)).1 k = some v)
        ∧ (∀ k, k ∉ dictKeys entries →
            dictGet? (load_config (ConfigFileState.parsed entries)).1 k
              = dictGet? DEFAULT_CONFIG k)
        ∧ (∀ k, k ∈ dictKeys entries →
            k ∈ dictKeys (load_config (ConfigFileState.parsed entries)).1)) := by
  refine ⟨rfl, rfl, ?_⟩
  intro entries hnd
  refine ⟨fun k hk => ?_, fun k v hkv => ?_, fun k hk => ?_, fun k hk => ?_⟩
  · exact mem_dictKeys_dictUpdate_left entries DEFAULT_CONFIG k hk
  · exact dictGet?_dictUpdate_mem entries DEFAULT_CONFIG k v hnd hkv
  · exact dictGet?_dictUpdate_not_mem entries DEFAULT_CONFIG k hk
  · exact mem_dictKeys_dictUpdate_right entries DEFAULT_CONFIG k hk

/-- C9 witness: a parsed file overriding `organize_by_date` and adding
an unrecognized `custom_key` yields a merged configuration where the
override wins, an untouched key falls back to the default, and both
the default keys and the unrecognized key are present. -/
theorem c9_config_loading_witness :
    dictGet? (load_config (ConfigFileState.parsed
        [("organize_by_date", JVal.jb false), ("custom_key", JVal.js "x")])).1
        "organize_by_date" = some (JVal.jb false)
  ∧ dictGet? (load_config (ConfigFileState.parsed
        [("organize_by_date", JVal.jb false), ("custom_key", JVal.js "x")])).1
        "delay_seconds" = dictGet? DEFAULT_CONFIG "delay_seconds"
  ∧ "categories" ∈ dictKeys (load_config (ConfigFileState.parsed
        [("organize_by_date", JVal.jb false), ("custom_key", JVal.js "x")])).1
  ∧ "custom_key" ∈ dictKeys (load_config (ConfigFileState.parsed
        [("organize_by_date", JVal.jb false), ("custom_key", JVal.js "x")])).1 := by
  refine ⟨((c9_config_loading.2.2 _ (by decide)).2.1 "organize_by_date" (JVal.jb false)
      (by decide)),
    ((c9_config_loading.2.2 _ (by decide)).2.2.1 "delay_seconds" (by decide)),
    ((c9_config_loading.2.2 _ (by decide)).1 "categories" (by decide)),
    ((c9_config_loading.2.2 _ (by decide)).2.2.2 "custom_key" (by decide))⟩

/-! ### Startup validation -/

/-- C8 counterexample: with an invalid root the error branch is taken
(the error is printed, nothing else runs) yet the recorded process
exit status is 0 — `main` merely `return`s, so the claimed non-zero
outcome does not occur. -/
theorem c8_invalid_root_counterexample :
    (mainRun false ConfigFileState.absent (fun _ => defaultCfg) (fun _ _ => false)
        (fun _ => false) ⟨[], []⟩).errorPrinted = true
  ∧ (mainRun false ConfigFileState.absent (fun _ => defaultCfg) (fun _ _ => false)
        (fun _ => false) ⟨[], []⟩).exitCode = 0 := ⟨rfl, rfl⟩

/-- C8 (amended).  If the given root path is not a directory, `main`
prints a visible error and returns before any configuration load,
first-run archiving, or watch begins — but the early return ends the
process normally, with exit status 0, not a non-zero outcome. -/
theorem c8_invalid_root_early_return :
    ∀ (cf : ConfigFileState) (mkConfig : List (String × JVal) → Config)
      (research : String → String → Bool) (moveOk : String → Bool) (s : FsState),
      mainRun false cf mkConfig research moveOk s
        = { errorPrinted := true, exitCode := 0, configResult := none,
            cleanupResult := none, watchStarted := false } :=
  fun _ _ _ _ _ => rfl
